import Mathlib

/-!
Shallow embedding of the slider-handle widget of `BsGUISliderHandle.h`
(BansheeEngine GUI). The reviewed sources contain only the class interface;
every behavioural definition below is therefore modelled from the spec, as
its doc comment records. Percentages are embedded as exact rationals,
pixel quantities as `Nat`/`Int`.
-/

namespace BansheeEngine

/-- Bit value of `GUISliderHandleFlag::Horizontal` (`1 << 0`) from the header. -/
def GUISliderHandleFlag.Horizontal : Nat := 1

/-- Bit value of `GUISliderHandleFlag::Vertical` (`1 << 1`) from the header. -/
def GUISliderHandleFlag.Vertical : Nat := 2

/-- Bit value of `GUISliderHandleFlag::JumpOnClick` (`1 << 2`) from the header. -/
def GUISliderHandleFlag.JumpOnClick : Nat := 4

/-- Bit value of `GUISliderHandleFlag::Resizeable` (`1 << 3`) from the header. -/
def GUISliderHandleFlag.Resizeable : Nat := 8

/-- Bitmask of `GUISliderHandleFlag` values, embedding `Flags<GUISliderHandleFlag>`. -/
abbrev GUISliderHandleFlags := Nat

/-- Test of a single flag bit, embedding `Flags::isSet`. -/
def flagIsSet (flags flag : Nat) : Bool := decide (flags &&& flag ≠ 0)

/-- Visual state of the handle, from the header (`enum class State`). -/
inductive State
  | Normal
  | Hover
  | Active
deriving DecidableEq, Repr

/-- Modelled from the spec: the interaction drag mode
`enum {None, MovingHandle, ResizingLeft, ResizingRight}`. The reviewed header
declares a three-state `DragState` (`Normal, LeftResize, RightResize`) but its
use is in the missing implementation file; the spec's machine adds the
explicit `None` (no active drag). -/
inductive DragMode
  | None
  | MovingHandle
  | ResizingLeft
  | ResizingRight
deriving DecidableEq, Repr

/-- The mutable widget state of `GUISliderHandle`, with the field names of the
header. `mResizeAnchor` is modelled from the spec (the pixel coordinate of the
edge held fixed during a resize drag, recorded at pointer-down). -/
structure GUISliderHandle where
  mFlags : GUISliderHandleFlags
  mMinHandleSize : Nat
  mPctHandlePos : ℚ
  mPctHandleSize : ℚ
  mStep : ℚ
  mDragStartPos : Int
  mResizeAnchor : Int
  mDragState : DragMode
  mMouseOverHandle : Bool
  mPressed : Bool
  mState : State
deriving DecidableEq, Repr

/-- Modelled from the spec: fixed pixel width of a resize grip
(`RESIZE_HANDLE_SIZE` is declared in the header; its value is in the missing
implementation file, so an arbitrary concrete value is used). -/
def RESIZE_HANDLE_SIZE : Nat := 4

/-- Modelled from the spec: `getMaxSize` returns the total pixel length of the
area the handle can move in; that track length is supplied by the external
layout system each frame, so it is an explicit argument here. -/
def getMaxSize (_ : GUISliderHandle) (track : Nat) : Nat := track

/-- Modelled from the spec: `getHandleSize` returns the handle length in
pixels, `max(minHandleSizePx, round(sizePct * trackLengthPx))` clamped to at
most the track length. -/
def getHandleSize (s : GUISliderHandle) (track : Nat) : Nat :=
  min track (max s.mMinHandleSize (round (s.mPctHandleSize * (track : ℚ))).toNat)

/-- Modelled from the spec: `getScrollableSize` returns the remaining track
length not covered by the handle, `trackLengthPx - handleLengthPx`
(never negative). -/
def getScrollableSize (s : GUISliderHandle) (track : Nat) : Nat :=
  getMaxSize s track - getHandleSize s track

/-- Modelled from the spec: `getHandlePosPx` returns the handle offset in
pixels, `round(positionPct * scrollableLengthPx)`. -/
def getHandlePosPx (s : GUISliderHandle) (track : Nat) : Int :=
  round (s.mPctHandlePos * (getScrollableSize s track : ℚ))

/-- Clamp of a percentage to the interval from 0 to 1, the correction applied
throughout the widget. -/
def clamp01 (x : ℚ) : ℚ := max 0 (min 1 x)

/-- Modelled from the spec: the inverse pixel-to-percent conversion used by
`setHandlePosPx`, `clamp(offsetPx / max(scrollableLengthPx, 1), 0, 1)`. -/
def positionFromPixel (offsetPx : Int) (scrollableLengthPx : Nat) : ℚ :=
  clamp01 ((offsetPx : ℚ) / ((max scrollableLengthPx 1 : Nat) : ℚ))

/-- Modelled from the spec: the visual-state selector, a pure function of the
hover/pressed/drag fields: `Active` if dragging, else `Hover` if hovered,
else `Normal`. -/
def visualState (hovered : Bool) (pressed : Bool) (dragMode : DragMode) : State :=
  if dragMode ≠ DragMode.None then State.Active
  else if hovered then State.Hover
  else State.Normal

/-- Modelled from the spec: `setStep` stores the quantization step directly,
without going through the interaction machine and without firing the movement
callback. The second component of every mutator is the list of
`onHandleMovedOrResized` firings it performs. -/
def setStep (s : GUISliderHandle) (step : ℚ) : GUISliderHandle × List (ℚ × ℚ) :=
  ({ s with mStep := step }, [])

/-- Modelled from the spec: `_setHandlePos` stores the position percentage
clamped to the unit interval, never rejecting its input, and fires no
callback. -/
def _setHandlePos (s : GUISliderHandle) (pct : ℚ) : GUISliderHandle × List (ℚ × ℚ) :=
  ({ s with mPctHandlePos := clamp01 pct }, [])

/-- Modelled from the spec: `_setHandleSize` stores the size percentage
clamped to the unit interval, never rejecting its input, and fires no
callback. -/
def _setHandleSize (s : GUISliderHandle) (pct : ℚ) : GUISliderHandle × List (ℚ × ℚ) :=
  ({ s with mPctHandleSize := clamp01 pct }, [])

/-- Pointer event along the drag axis, modelled from the spec: phase
`Down`, `Move`, `Up`, `Enter` (`MouseOver`) or `Leave` (`MouseOut`), with the
widget-local position along the drag axis where the phase carries one. -/
inductive GUIMouseEvent
  | MouseDown (pos : Int)
  | MouseMove (pos : Int)
  | MouseUp
  | MouseOver
  | MouseOut
deriving DecidableEq, Repr

/-- Modelled from the spec: committing a candidate state at the end of a
pointer event recomputes the visual state and fires the movement callback
with the new `(positionPct, sizePct)` exactly when one of them changed. -/
def commit (old next : GUISliderHandle) : GUISliderHandle × List (ℚ × ℚ) :=
  let next2 := { next with
    mState := visualState next.mMouseOverHandle next.mPressed next.mDragState }
  if next2.mPctHandlePos ≠ old.mPctHandlePos ∨ next2.mPctHandleSize ≠ old.mPctHandleSize then
    (next2, [(next2.mPctHandlePos, next2.mPctHandleSize)])
  else
    (next2, [])

/-- Modelled from the spec: `_mouseEvent`, the interaction state machine.
Pointer-down hit-tests against the grips (left-grip priority) and the handle
body, starting a resize or a move drag, and otherwise jumps or nudges the
position; pointer-move converts the captured pointer position back to a
percentage (quantized to the step when one is set, then clamped) or resizes
while keeping the anchored edge fixed; pointer-up ends the drag; enter/leave
maintain the hover flag (leave only clears it while not dragging). The track
length is the externally supplied layout length for this frame. The nudge
increment when the step is zero is left open by the reviewed material; the
spec's suggested one percent of the track is used. -/
def _mouseEvent (s : GUISliderHandle) (track : Nat) (ev : GUIMouseEvent) :
    GUISliderHandle × List (ℚ × ℚ) :=
  match ev with
  | .MouseDown pos =>
    let o := getHandlePosPx s track
    let len : Int := (getHandleSize s track : Int)
    let grip : Int := (min RESIZE_HANDLE_SIZE (getHandleSize s track / 2) : Nat)
    let resizeable := flagIsSet s.mFlags GUISliderHandleFlag.Resizeable
    if o ≤ pos ∧ pos < o + len then
      if resizeable = true ∧ pos < o + grip then
        commit s { s with mDragState := DragMode.ResizingLeft, mResizeAnchor := o + len,
                          mPressed := true }
      else if resizeable = true ∧ o + len - grip ≤ pos then
        commit s { s with mDragState := DragMode.ResizingRight, mResizeAnchor := o,
                          mPressed := true }
      else
        commit s { s with mDragState := DragMode.MovingHandle, mDragStartPos := pos - o,
                          mPressed := true }
    else
      if flagIsSet s.mFlags GUISliderHandleFlag.JumpOnClick then
        commit s { s with
          mPctHandlePos := positionFromPixel (pos - len / 2) (getScrollableSize s track),
          mPressed := true }
      else
        let inc : ℚ := if 0 < s.mStep then s.mStep else 1 / 100
        let dir : ℚ := if pos < o then -1 else 1
        commit s { s with mPctHandlePos := clamp01 (s.mPctHandlePos + dir * inc),
                          mPressed := true }
  | .MouseMove pos =>
    match s.mDragState with
    | DragMode.None => commit s s
    | DragMode.MovingHandle =>
      let S := getScrollableSize s track
      let off : Int := max 0 (min (pos - s.mDragStartPos) (S : Int))
      let p0 := positionFromPixel off S
      let p1 := if 0 < s.mStep then clamp01 (s.mStep * ((round (p0 / s.mStep) : Int) : ℚ))
                else p0
      commit s { s with mPctHandlePos := p1 }
    | DragMode.ResizingLeft =>
      let rightEdge := s.mResizeAnchor
      let newLeft : Int := max 0 (min pos (rightEdge - (s.mMinHandleSize : Int)))
      let newLen : Int := rightEdge - newLeft
      let s1 := { s with mPctHandleSize := clamp01 ((newLen : ℚ) / (track : ℚ)) }
      commit s { s1 with
        mPctHandlePos := positionFromPixel newLeft (getScrollableSize s1 track) }
    | DragMode.ResizingRight =>
      let leftEdge := s.mResizeAnchor
      let newRight : Int := min (track : Int) (max pos (leftEdge + (s.mMinHandleSize : Int)))
      let newLen : Int := newRight - leftEdge
      let s1 := { s with mPctHandleSize := clamp01 ((newLen : ℚ) / (track : ℚ)) }
      commit s { s1 with
        mPctHandlePos := positionFromPixel leftEdge (getScrollableSize s1 track) }
  | .MouseUp => commit s { s with mDragState := DragMode.None, mPressed := false }
  | .MouseOver => commit s { s with mMouseOverHandle := true }
  | .MouseOut =>
    if s.mDragState = DragMode.None then commit s { s with mMouseOverHandle := false }
    else commit s s

/-- Modelled from the spec: `_getNumRenderElements` reports one render
element for the handle quad. -/
def _getNumRenderElements (_ : GUISliderHandle) : Nat := 1

/-- Modelled from the spec: `_getMeshInfo` reports the vertex and index count
of the handle quad: four vertices and six indices, with zero of each allowed
exactly when the computed handle length is zero. -/
def _getMeshInfo (s : GUISliderHandle) (track : Nat) : Nat × Nat :=
  if getHandleSize s track = 0 then (0, 0) else (4, 6)

/-- Modelled from the spec: the state a freshly constructed handle starts in:
position zero, no active drag, visual state `Normal`. The initial size
percentage is style-derived in the original and starts at zero here; external
code sets it through `_setHandleSize`. -/
def construct (flags : GUISliderHandleFlags) (minHandleSize : Nat) : GUISliderHandle :=
  { mFlags := flags
    mMinHandleSize := minHandleSize
    mPctHandlePos := 0
    mPctHandleSize := 0
    mStep := 0
    mDragStartPos := 0
    mResizeAnchor := 0
    mDragState := DragMode.None
    mMouseOverHandle := false
    mPressed := false
    mState := State.Normal }

/-- Modelled from the spec: `create` fails fast when both orientation flags
are set (an invalid configuration is rejected at construction rather than one
orientation being silently chosen). -/
def create (flags : GUISliderHandleFlags) (minHandleSize : Nat) : Option GUISliderHandle :=
  if flagIsSet flags GUISliderHandleFlag.Horizontal &&
     flagIsSet flags GUISliderHandleFlag.Vertical then
    none
  else
    some (construct flags minHandleSize)

/-- One externally observable mutation of the widget: a pointer event
delivered with that frame's track length, or one of the programmatic
setter calls. -/
inductive SliderOp
  | pointer (track : Nat) (ev : GUIMouseEvent)
  | setHandlePosOp (pct : ℚ)
  | setHandleSizeOp (pct : ℚ)
  | setStepOp (step : ℚ)

/-- Application of one `SliderOp` to the widget state. -/
def applyOp (s : GUISliderHandle) (op : SliderOp) : GUISliderHandle :=
  match op with
  | .pointer track ev => (_mouseEvent s track ev).1
  | .setHandlePosOp p => (_setHandlePos s p).1
  | .setHandleSizeOp p => (_setHandleSize s p).1
  | .setStepOp v => (setStep s v).1

/-- Application of a sequence of operations, first to last. -/
def runOps (s : GUISliderHandle) (ops : List SliderOp) : GUISliderHandle :=
  ops.foldl applyOp s

/-! Helper lemmas. -/

theorem clamp01_nonneg (x : ℚ) : 0 ≤ clamp01 x := le_max_left 0 _

theorem clamp01_le_one (x : ℚ) : clamp01 x ≤ 1 := max_le zero_le_one (min_le_left 1 x)

theorem round_mono_rat {x y : ℚ} (h : x ≤ y) : round x ≤ round y := by
  rw [round_eq, round_eq]
  exact Int.floor_mono (by linarith)

theorem commit_fst_mPctHandlePos (old next : GUISliderHandle) :
    (commit old next).1.mPctHandlePos = next.mPctHandlePos := by
  simp only [commit]
  split <;> rfl

theorem commit_fst_mPctHandleSize (old next : GUISliderHandle) :
    (commit old next).1.mPctHandleSize = next.mPctHandleSize := by
  simp only [commit]
  split <;> rfl

theorem commit_fst_mDragState (old next : GUISliderHandle) :
    (commit old next).1.mDragState = next.mDragState := by
  simp only [commit]
  split <;> rfl

theorem commit_fst_mMouseOverHandle (old next : GUISliderHandle) :
    (commit old next).1.mMouseOverHandle = next.mMouseOverHandle := by
  simp only [commit]
  split <;> rfl

theorem commit_fst_mPressed (old next : GUISliderHandle) :
    (commit old next).1.mPressed = next.mPressed := by
  simp only [commit]
  split <;> rfl

theorem commit_fst_mState (old next : GUISliderHandle) :
    (commit old next).1.mState
      = visualState next.mMouseOverHandle next.mPressed next.mDragState := by
  simp only [commit]
  split <;> rfl

theorem commit_snd_of_change (old next : GUISliderHandle)
    (h : (commit old next).1.mPctHandlePos ≠ old.mPctHandlePos ∨
         (commit old next).1.mPctHandleSize ≠ old.mPctHandleSize) :
    (commit old next).2
      = [((commit old next).1.mPctHandlePos, (commit old next).1.mPctHandleSize)] := by
  rw [commit_fst_mPctHandlePos, commit_fst_mPctHandleSize] at h ⊢
  simp only [commit]
  rw [if_pos h]

theorem mouseEvent_eq_commit (s : GUISliderHandle) (track : Nat) (ev : GUIMouseEvent) :
    ∃ next, _mouseEvent s track ev = commit s next := by
  cases ev <;> simp only [_mouseEvent] <;> (try cases s.mDragState) <;> (repeat' split) <;>
    exact ⟨_, rfl⟩

theorem mouseEvent_pct_cases (s : GUISliderHandle) (track : Nat) (ev : GUIMouseEvent) :
    (_mouseEvent s track ev).1.mPctHandlePos = s.mPctHandlePos ∨
    ∃ x, (_mouseEvent s track ev).1.mPctHandlePos = clamp01 x := by
  cases ev <;> simp only [_mouseEvent] <;> (try cases s.mDragState) <;> (repeat' split) <;>
    simp only [commit_fst_mPctHandlePos] <;> (repeat' split) <;>
    first
      | exact Or.inl trivial
      | exact Or.inl rfl
      | exact Or.inr ⟨_, rfl⟩

theorem applyOp_pct_bounds (s : GUISliderHandle) (op : SliderOp)
    (h0 : 0 ≤ s.mPctHandlePos) (h1 : s.mPctHandlePos ≤ 1) :
    0 ≤ (applyOp s op).mPctHandlePos ∧ (applyOp s op).mPctHandlePos ≤ 1 := by
  cases op with
  | pointer track ev =>
    rcases mouseEvent_pct_cases s track ev with h | ⟨x, h⟩
    · simp only [applyOp, h]
      exact ⟨h0, h1⟩
    · simp only [applyOp, h]
      exact ⟨clamp01_nonneg x, clamp01_le_one x⟩
  | setHandlePosOp p => exact ⟨clamp01_nonneg p, clamp01_le_one p⟩
  | setHandleSizeOp p => exact ⟨h0, h1⟩
  | setStepOp v => exact ⟨h0, h1⟩

theorem runOps_pct_bounds (ops : List SliderOp) (s : GUISliderHandle)
    (h0 : 0 ≤ s.mPctHandlePos) (h1 : s.mPctHandlePos ≤ 1) :
    0 ≤ (runOps s ops).mPctHandlePos ∧ (runOps s ops).mPctHandlePos ≤ 1 := by
  induction ops generalizing s with
  | nil => exact ⟨h0, h1⟩
  | cons op rest ih =>
    have h := applyOp_pct_bounds s op h0 h1
    exact ih (applyOp s op) h.1 h.2

theorem getHandleSize_le (s : GUISliderHandle) (track : Nat) :
    getHandleSize s track ≤ track :=
  min_le_left _ _

theorem getHandleSize_ge_min (s : GUISliderHandle) (track : Nat) :
    min s.mMinHandleSize track ≤ getHandleSize s track := by
  simp only [getHandleSize]
  omega

theorem positionFromPixel_nonneg (offsetPx : Int) (scrollableLengthPx : Nat) :
    0 ≤ positionFromPixel offsetPx scrollableLengthPx :=
  clamp01_nonneg _

theorem positionFromPixel_le_one (offsetPx : Int) (scrollableLengthPx : Nat) :
    positionFromPixel offsetPx scrollableLengthPx ≤ 1 :=
  clamp01_le_one _

theorem mouseEvent_move_pct (s : GUISliderHandle) (track : Nat) (pos : Int)
    (hdrag : s.mDragState = DragMode.MovingHandle) (hstep : 0 < s.mStep) :
    ((_mouseEvent s track (GUIMouseEvent.MouseMove pos)).1).mPctHandlePos
      = clamp01 (s.mStep * ((round (positionFromPixel
            (max 0 (min (pos - s.mDragStartPos) ((getScrollableSize s track : Nat) : Int)))
            (getScrollableSize s track) / s.mStep) : Int) : ℚ)) := by
  simp only [_mouseEvent, hdrag, commit_fst_mPctHandlePos, if_pos hstep]

/-! Claim theorems. -/

/-- C1: after any sequence of pointer events and setter calls applied to a
freshly constructed slider handle, the position percentage stays between 0
and 1, and the computed handle pixel length is at least the minimum of the
stored minimum handle size and the track length. -/
theorem C1_clamping_invariant (flags : GUISliderHandleFlags) (minHandleSize : Nat)
    (ops : List SliderOp) (track : Nat) :
    (0 ≤ (runOps (construct flags minHandleSize) ops).mPctHandlePos ∧
      (runOps (construct flags minHandleSize) ops).mPctHandlePos ≤ 1) ∧
    min (runOps (construct flags minHandleSize) ops).mMinHandleSize track
      ≤ getHandleSize (runOps (construct flags minHandleSize) ops) track :=
  ⟨runOps_pct_bounds ops (construct flags minHandleSize) (le_refl 0) zero_le_one,
    getHandleSize_ge_min _ _⟩

/-- C2: for every track length and state, the pixel geometry satisfies
`handleLengthPx = max(minHandleSizePx, round(sizePct * trackLengthPx))`
clamped to at most the track length, `scrollableLengthPx = trackLengthPx -
handleLengthPx` and is never negative, and `handleOffsetPx =
round(positionPct * scrollableLengthPx)`; all three are pure functions of the
state and track length. -/
theorem C2_pixel_geometry (s : GUISliderHandle) (track : Nat) :
    ((getHandleSize s track : Int)
        = min (track : Int)
            (max (s.mMinHandleSize : Int) (round (s.mPctHandleSize * (track : ℚ))))) ∧
    ((getScrollableSize s track : Int) = (track : Int) - (getHandleSize s track : Int)) ∧
    getHandleSize s track ≤ getMaxSize s track ∧
    getHandlePosPx s track = round (s.mPctHandlePos * ((getScrollableSize s track : Nat) : ℚ)) := by
  refine ⟨?_, ?_, getHandleSize_le s track, rfl⟩
  · simp only [getHandleSize]
    push_cast [Int.toNat_eq_max]
    omega
  · have h := getHandleSize_le s track
    simp only [getScrollableSize, getMaxSize]
    omega

/-- C5: constructing a slider handle whose flags have both the `Horizontal`
and the `Vertical` orientation bits set fails at construction: `create`
returns no handle rather than silently choosing one orientation. -/
theorem C5_orientation_exclusivity (flags : GUISliderHandleFlags) (minHandleSize : Nat)
    (hh : flagIsSet flags GUISliderHandleFlag.Horizontal = true)
    (hv : flagIsSet flags GUISliderHandleFlag.Vertical = true) :
    create flags minHandleSize = none := by
  simp [create, hh, hv]

/-- C5 witness: the flag value 3 has both orientation bits set and its
construction is rejected. -/
theorem C5_orientation_exclusivity_witness :
    flagIsSet 3 GUISliderHandleFlag.Horizontal = true ∧
    flagIsSet 3 GUISliderHandleFlag.Vertical = true ∧
    create 3 5 = none :=
  ⟨by decide, by decide, C5_orientation_exclusivity 3 5 (by decide) (by decide)⟩

/-- C7: for every input value, including values below 0 and above 1, the
position and size setters succeed and store the input clamped to the unit
interval. -/
theorem C7_setters_clamp (s : GUISliderHandle) (p : ℚ) :
    ((_setHandlePos s p).1).mPctHandlePos = max 0 (min 1 p) ∧
    ((_setHandleSize s p).1).mPctHandleSize = max 0 (min 1 p) :=
  ⟨rfl, rfl⟩

/-- C8: after every pointer event the stored visual state equals the pure
selector applied to the resulting hover/pressed/drag fields; the selector is
`Active` when a drag is in progress, else `Hover` when hovered, else
`Normal`, and it does not depend on the pressed flag. -/
theorem C8_visual_state_pure (s : GUISliderHandle) (track : Nat) (ev : GUIMouseEvent) :
    (((_mouseEvent s track ev).1).mState =
      visualState ((_mouseEvent s track ev).1).mMouseOverHandle
        ((_mouseEvent s track ev).1).mPressed ((_mouseEvent s track ev).1).mDragState) ∧
    (∀ hovered pr1 pr2 dragMode,
      visualState hovered pr1 dragMode = visualState hovered pr2 dragMode) ∧
    (∀ hovered pressed dragMode,
      visualState hovered pressed dragMode =
        if dragMode ≠ DragMode.None then State.Active
        else if hovered = true then State.Hover
        else State.Normal) := by
  refine ⟨?_, fun _ _ _ _ => rfl, fun _ _ _ => rfl⟩
  obtain ⟨n, hn⟩ := mouseEvent_eq_commit s track ev
  rw [hn, commit_fst_mState, commit_fst_mMouseOverHandle, commit_fst_mPressed,
    commit_fst_mDragState]

/-- C9: the widget always reports exactly one render element, and its mesh is
one quad of 4 vertices and 6 indices whenever the computed handle length is
non-zero; when that length is zero it reports zero vertices and indices. -/
theorem C9_mesh_contract (s : GUISliderHandle) (track : Nat) :
    _getNumRenderElements s = 1 ∧
    (getHandleSize s track ≠ 0 → _getMeshInfo s track = (4, 6)) ∧
    (getHandleSize s track = 0 → _getMeshInfo s track = (0, 0)) := by
  refine ⟨rfl, fun h => ?_, fun h => ?_⟩
  · simp [_getMeshInfo, h]
  · simp [_getMeshInfo, h]

/-- C9 witness: a handle with minimum size 5 on a track of length 10 has a
non-zero handle length and reports one render element with a 4-vertex,
6-index quad. -/
theorem C9_mesh_contract_witness :
    getHandleSize (construct 0 5) 10 ≠ 0 ∧
    _getNumRenderElements (construct 0 5) = 1 ∧
    _getMeshInfo (construct 0 5) 10 = (4, 6) := by
  have h : getHandleSize (construct 0 5) 10 = 5 := by
    simp only [getHandleSize, construct]
    norm_num [round_eq]
  refine ⟨by rw [h]; norm_num, (C9_mesh_contract (construct 0 5) 10).1,
    (C9_mesh_contract (construct 0 5) 10).2.1 (by rw [h]; norm_num)⟩

/-- C10: for every state whose position percentage is in the unit interval,
the pixel accessors are mutually consistent: the handle offset lies between 0
and the scrollable length, the scrollable length is the track length minus
the handle length, and the handle length never exceeds the track length, so
the handle rectangle lies inside the track. -/
theorem C10_pixel_accessor_consistency (s : GUISliderHandle) (track : Nat)
    (h0 : 0 ≤ s.mPctHandlePos) (h1 : s.mPctHandlePos ≤ 1) :
    0 ≤ getHandlePosPx s track ∧
    getHandlePosPx s track ≤ ((getScrollableSize s track : Nat) : Int) ∧
    getScrollableSize s track = getMaxSize s track - getHandleSize s track ∧
    getHandleSize s track ≤ getMaxSize s track := by
  refine ⟨?_, ?_, rfl, getHandleSize_le s track⟩
  · have hm : (0 : ℚ) ≤ s.mPctHandlePos * ((getScrollableSize s track : Nat) : ℚ) :=
      mul_nonneg h0 (by positivity)
    have h2 := round_mono_rat hm
    rw [round_zero] at h2
    exact h2
  · have hle : s.mPctHandlePos * ((getScrollableSize s track : Nat) : ℚ)
        ≤ ((getScrollableSize s track : Nat) : ℚ) :=
      mul_le_of_le_one_left (by positivity) h1
    have h2 := round_mono_rat hle
    rw [round_natCast] at h2
    exact h2

/-- C10 witness: a freshly constructed handle with minimum size 5 on a track
of length 10 satisfies the accessor consistency conditions. -/
theorem C10_pixel_accessor_consistency_witness :
    (0 : ℚ) ≤ (construct 0 5).mPctHandlePos ∧ (construct 0 5).mPctHandlePos ≤ 1 ∧
    (0 ≤ getHandlePosPx (construct 0 5) 10 ∧
      getHandlePosPx (construct 0 5) 10 ≤ ((getScrollableSize (construct 0 5) 10 : Nat) : Int) ∧
      getScrollableSize (construct 0 5) 10
        = getMaxSize (construct 0 5) 10 - getHandleSize (construct 0 5) 10 ∧
      getHandleSize (construct 0 5) 10 ≤ getMaxSize (construct 0 5) 10) :=
  ⟨le_refl 0, zero_le_one,
    C10_pixel_accessor_consistency (construct 0 5) 10 (le_refl 0) zero_le_one⟩

/-- C6: the movement callback fires with the new `(positionPct, sizePct)`
whenever a pointer event changes either value, and the programmatic setters
`setStep`, `_setHandlePos` and `_setHandleSize` never fire it, for any
argument values. -/
theorem C6_callback_policy (s : GUISliderHandle) (track : Nat) (ev : GUIMouseEvent)
    (p q v : ℚ) :
    ((((_mouseEvent s track ev).1).mPctHandlePos ≠ s.mPctHandlePos ∨
        ((_mouseEvent s track ev).1).mPctHandleSize ≠ s.mPctHandleSize) →
      (_mouseEvent s track ev).2 =
        [(((_mouseEvent s track ev).1).mPctHandlePos,
          ((_mouseEvent s track ev).1).mPctHandleSize)]) ∧
    (_setHandlePos s p).2 = [] ∧ (_setHandleSize s q).2 = [] ∧ (setStep s v).2 = [] := by
  refine ⟨fun h => ?_, rfl, rfl, rfl⟩
  obtain ⟨n, hn⟩ := mouseEvent_eq_commit s track ev
  rw [hn] at h ⊢
  exact commit_snd_of_change s n h

/-- Sample used for the C6 witness: a jump-on-click handle of minimum size 0
on a track of length 10, position 0. -/
def jumpSample : GUISliderHandle :=
  { mFlags := 4
    mMinHandleSize := 0
    mPctHandlePos := 0
    mPctHandleSize := 0
    mStep := 0
    mDragStartPos := 0
    mResizeAnchor := 0
    mDragState := DragMode.None
    mMouseOverHandle := false
    mPressed := false
    mState := State.Normal }

/-- C6 witness: clicking at pixel 7 of a 10-pixel track with jump-on-click
moves the position from 0 to 7/10 and fires the callback exactly with the new
pair. -/
theorem C6_callback_policy_witness :
    (((_mouseEvent jumpSample 10 (GUIMouseEvent.MouseDown 7)).1).mPctHandlePos
        ≠ jumpSample.mPctHandlePos ∨
      ((_mouseEvent jumpSample 10 (GUIMouseEvent.MouseDown 7)).1).mPctHandleSize
        ≠ jumpSample.mPctHandleSize) ∧
    (_mouseEvent jumpSample 10 (GUIMouseEvent.MouseDown 7)).2 =
      [(((_mouseEvent jumpSample 10 (GUIMouseEvent.MouseDown 7)).1).mPctHandlePos,
        ((_mouseEvent jumpSample 10 (GUIMouseEvent.MouseDown 7)).1).mPctHandleSize)] := by
  have hpos : ((_mouseEvent jumpSample 10 (GUIMouseEvent.MouseDown 7)).1).mPctHandlePos
      = 7 / 10 := by
    simp only [_mouseEvent, jumpSample, getHandlePosPx, getScrollableSize, getHandleSize,
      getMaxSize, positionFromPixel, clamp01, commit, flagIsSet, visualState,
      GUISliderHandleFlag.JumpOnClick, GUISliderHandleFlag.Resizeable]
    norm_num [round_eq]
  have hchange : ((_mouseEvent jumpSample 10 (GUIMouseEvent.MouseDown 7)).1).mPctHandlePos
        ≠ jumpSample.mPctHandlePos ∨
      ((_mouseEvent jumpSample 10 (GUIMouseEvent.MouseDown 7)).1).mPctHandleSize
        ≠ jumpSample.mPctHandleSize := by
    left
    rw [hpos]
    norm_num [jumpSample]
  exact ⟨hchange, (C6_callback_policy jumpSample 10 (GUIMouseEvent.MouseDown 7) 0 0 0).1 hchange⟩

/-- Helper for C3: clamping to the unit interval never moves a value farther
from a point of that interval. -/
theorem clamp01_abs_sub_le (x p : ℚ) (h0 : 0 ≤ p) (h1 : p ≤ 1) :
    |clamp01 x - p| ≤ |x - p| := by
  unfold clamp01
  rcases le_total x 0 with hx | hx
  · rw [min_eq_right (hx.trans zero_le_one), max_eq_left hx,
      abs_of_nonpos (by linarith), abs_of_nonpos (by linarith)]
    linarith
  · rcases le_total x 1 with hx1 | hx1
    · rw [min_eq_right hx1, max_eq_right hx]
    · rw [min_eq_left hx1, max_eq_right zero_le_one,
        abs_of_nonneg (by linarith), abs_of_nonneg (by linarith)]
      linarith

/-- C3: for every positive track length and a position percentage in the unit
interval, converting the position to a pixel offset and back through
`positionFromPixel` recovers it within one pixel's worth of rounding error,
one over the (at least one) scrollable length. -/
theorem C3_round_trip (s : GUISliderHandle) (track : Nat)
    (ht : 0 < track) (h0 : 0 ≤ s.mPctHandlePos) (h1 : s.mPctHandlePos ≤ 1) :
    |positionFromPixel (getHandlePosPx s track) (getScrollableSize s track) - s.mPctHandlePos|
      ≤ 1 / ((max (getScrollableSize s track) 1 : Nat) : ℚ) := by
  rcases Nat.eq_zero_or_pos (getScrollableSize s track) with h | h
  · have hpos : getHandlePosPx s track = 0 := by
      simp only [getHandlePosPx, h]
      norm_num
    rw [h, hpos]
    have hpfp : positionFromPixel 0 0 = 0 := by
      simp only [positionFromPixel, clamp01]
      norm_num
    rw [hpfp, abs_of_nonpos (by linarith)]
    norm_num
    linarith
  · have hmax : max (getScrollableSize s track) 1 = getScrollableSize s track :=
      Nat.max_eq_left h
    have hSQ : (0 : ℚ) < ((getScrollableSize s track : Nat) : ℚ) := by exact_mod_cast h
    rw [hmax]
    have hr : |(((round (s.mPctHandlePos * ((getScrollableSize s track : Nat) : ℚ))) : ℤ) : ℚ)
        - s.mPctHandlePos * ((getScrollableSize s track : Nat) : ℚ)| ≤ 1 / 2 := by
      have h2 := abs_sub_round (s.mPctHandlePos * ((getScrollableSize s track : Nat) : ℚ))
      rw [abs_sub_comm] at h2
      exact h2
    have hstep1 : positionFromPixel (getHandlePosPx s track) (getScrollableSize s track)
        = clamp01 ((((round (s.mPctHandlePos * ((getScrollableSize s track : Nat) : ℚ))) : ℤ) : ℚ)
            / ((getScrollableSize s track : Nat) : ℚ)) := by
      simp only [positionFromPixel, getHandlePosPx, hmax]
    rw [hstep1]
    calc |clamp01 ((((round (s.mPctHandlePos * ((getScrollableSize s track : Nat) : ℚ))) : ℤ) : ℚ)
            / ((getScrollableSize s track : Nat) : ℚ)) - s.mPctHandlePos|
        ≤ |(((round (s.mPctHandlePos * ((getScrollableSize s track : Nat) : ℚ))) : ℤ) : ℚ)
            / ((getScrollableSize s track : Nat) : ℚ) - s.mPctHandlePos| :=
          clamp01_abs_sub_le _ _ h0 h1
      _ = |(((round (s.mPctHandlePos * ((getScrollableSize s track : Nat) : ℚ))) : ℤ) : ℚ)
            - s.mPctHandlePos * ((getScrollableSize s track : Nat) : ℚ)|
            / ((getScrollableSize s track : Nat) : ℚ) := by
          rw [← abs_of_pos hSQ, ← abs_div]
          congr 1
          field_simp
          ring
      _ ≤ (1 / 2) / ((getScrollableSize s track : Nat) : ℚ) := by gcongr
      _ ≤ 1 / ((getScrollableSize s track : Nat) : ℚ) := by gcongr <;> norm_num

/-- Sample used for the C3 witness: a handle at position one half, minimum
size 3, on a track of length 10. -/
def roundTripSample : GUISliderHandle :=
  { mFlags := 0
    mMinHandleSize := 3
    mPctHandlePos := 1 / 2
    mPctHandleSize := 0
    mStep := 0
    mDragStartPos := 0
    mResizeAnchor := 0
    mDragState := DragMode.None
    mMouseOverHandle := false
    mPressed := false
    mState := State.Normal }

/-- C3 witness: the round trip at position one half on a track of length 10
stays within one pixel's worth of error. -/
theorem C3_round_trip_witness :
    0 < 10 ∧ (0 : ℚ) ≤ roundTripSample.mPctHandlePos ∧ roundTripSample.mPctHandlePos ≤ 1 ∧
    |positionFromPixel (getHandlePosPx roundTripSample 10) (getScrollableSize roundTripSample 10)
        - roundTripSample.mPctHandlePos|
      ≤ 1 / ((max (getScrollableSize roundTripSample 10) 1 : Nat) : ℚ) :=
  ⟨by norm_num, by norm_num [roundTripSample], by norm_num [roundTripSample],
    C3_round_trip roundTripSample 10 (by norm_num)
      (by norm_num [roundTripSample]) (by norm_num [roundTripSample])⟩

/-- C4 counterexample sample: a coarse step of two thirds while dragging the
handle, minimum handle size 0 on a track of length 10. -/
def coarseStepSample : GUISliderHandle :=
  { mFlags := 0
    mMinHandleSize := 0
    mPctHandlePos := 0
    mPctHandleSize := 0
    mStep := 2 / 3
    mDragStartPos := 0
    mResizeAnchor := 0
    mDragState := DragMode.MovingHandle
    mMouseOverHandle := false
    mPressed := true
    mState := State.Active }

/-- C4 counterexample: with step two thirds, a drag that pulls the raw
position to 1 settles at 1 after the final clamp, and 1 is not a multiple of
the step — so the resulting position percentage is not quantized to the
nearest multiple of the step, contrary to the claim as stated. -/
theorem C4_counterexample :
    ((_mouseEvent coarseStepSample 10 (GUIMouseEvent.MouseMove 10)).1).mPctHandlePos = 1 ∧
    ¬ ∃ k : Int,
        ((_mouseEvent coarseStepSample 10 (GUIMouseEvent.MouseMove 10)).1).mPctHandlePos
          = coarseStepSample.mStep * (k : ℚ) := by
  have hres : ((_mouseEvent coarseStepSample 10 (GUIMouseEvent.MouseMove 10)).1).mPctHandlePos
      = 1 := by
    simp only [_mouseEvent, coarseStepSample, getHandlePosPx, getScrollableSize, getHandleSize,
      getMaxSize, positionFromPixel, clamp01, commit, flagIsSet, visualState]
    norm_num [round_eq]
  refine ⟨hres, ?_⟩
  rintro ⟨k, hk⟩
  rw [hres] at hk
  have hstepval : coarseStepSample.mStep = 2 / 3 := rfl
  rw [hstepval] at hk
  have h3 : (3 : ℚ) = 2 * (k : ℚ) := by
    field_simp at hk
    linarith
  have h3i : (3 : ℤ) = 2 * k := by exact_mod_cast h3
  omega

/-- C4 (amended): while dragging the handle with a positive step, the new
position percentage is the nearest multiple of the step of the raw dragged
percentage, clamped to the unit interval afterwards: it equals
`min 1 (step * k)` for the integer `k` nearest to the raw percentage divided
by the step (so within half a step of it), and it is exactly that nearest
multiple whenever the multiple does not exceed 1 — in particular for any
step that divides 1, such as one tenth. -/
theorem C4_amended_step_quantization (s : GUISliderHandle) (track : Nat) (pos : Int)
    (hstep : 0 < s.mStep) (hdrag : s.mDragState = DragMode.MovingHandle) :
    ∃ k : Int,
      ((_mouseEvent s track (GUIMouseEvent.MouseMove pos)).1).mPctHandlePos
          = min 1 (s.mStep * (k : ℚ)) ∧
      |s.mStep * (k : ℚ) - positionFromPixel
          (max 0 (min (pos - s.mDragStartPos) ((getScrollableSize s track : Nat) : Int)))
          (getScrollableSize s track)| ≤ s.mStep / 2 ∧
      (s.mStep * (k : ℚ) ≤ 1 →
        ((_mouseEvent s track (GUIMouseEvent.MouseMove pos)).1).mPctHandlePos
          = s.mStep * (k : ℚ)) := by
  have hres := mouseEvent_move_pct s track pos hdrag hstep
  set p0 := positionFromPixel
      (max 0 (min (pos - s.mDragStartPos) ((getScrollableSize s track : Nat) : Int)))
      (getScrollableSize s track) with hp0
  have h00 : 0 ≤ p0 := by
    rw [hp0]
    exact positionFromPixel_nonneg _ _
  have hk0 : (0 : Int) ≤ round (p0 / s.mStep) := by
    have h2 := round_mono_rat (div_nonneg h00 hstep.le)
    rwa [round_zero] at h2
  have hq0 : (0 : ℚ) ≤ s.mStep * ((round (p0 / s.mStep) : Int) : ℚ) :=
    mul_nonneg hstep.le (by exact_mod_cast hk0)
  have heq : ((_mouseEvent s track (GUIMouseEvent.MouseMove pos)).1).mPctHandlePos
      = min 1 (s.mStep * ((round (p0 / s.mStep) : Int) : ℚ)) := by
    rw [hres]
    unfold clamp01
    exact max_eq_right (le_min zero_le_one hq0)
  refine ⟨round (p0 / s.mStep), heq, ?_, fun h => by rw [heq]; exact min_eq_right h⟩
  have habs : |(((round (p0 / s.mStep)) : Int) : ℚ) - p0 / s.mStep| ≤ 1 / 2 := by
    have h2 := abs_sub_round (p0 / s.mStep)
    rw [abs_sub_comm] at h2
    exact h2
  have hfactor : s.mStep * ((round (p0 / s.mStep) : Int) : ℚ) - p0
      = s.mStep * ((((round (p0 / s.mStep)) : Int) : ℚ) - p0 / s.mStep) := by
    field_simp
    ring
  rw [hfactor, abs_mul, abs_of_pos hstep]
  calc s.mStep * |(((round (p0 / s.mStep)) : Int) : ℚ) - p0 / s.mStep|
      ≤ s.mStep * (1 / 2) := mul_le_mul_of_nonneg_left habs hstep.le
    _ = s.mStep / 2 := by ring

/-- Sample used for the C4 witness: a step of one tenth while dragging the
handle, minimum handle size 0 on a track of length 100. -/
def stepSample : GUISliderHandle :=
  { mFlags := 0
    mMinHandleSize := 0
    mPctHandlePos := 0
    mPctHandleSize := 0
    mStep := 1 / 10
    mDragStartPos := 0
    mResizeAnchor := 0
    mDragState := DragMode.MovingHandle
    mMouseOverHandle := false
    mPressed := true
    mState := State.Active }

/-- C4 witness: with step one tenth, a drag to raw position 27/100 settles at
3/10 and one to 24/100 settles at 1/5 — nearest rounding, not truncation. -/
theorem C4_amended_step_quantization_witness :
    (0 : ℚ) < stepSample.mStep ∧
    stepSample.mDragState = DragMode.MovingHandle ∧
    (∃ k : Int,
      ((_mouseEvent stepSample 100 (GUIMouseEvent.MouseMove 27)).1).mPctHandlePos
          = min 1 (stepSample.mStep * (k : ℚ)) ∧
      |stepSample.mStep * (k : ℚ) - positionFromPixel
          (max 0 (min ((27 : Int) - stepSample.mDragStartPos)
            ((getScrollableSize stepSample 100 : Nat) : Int)))
          (getScrollableSize stepSample 100)| ≤ stepSample.mStep / 2 ∧
      (stepSample.mStep * (k : ℚ) ≤ 1 →
        ((_mouseEvent stepSample 100 (GUIMouseEvent.MouseMove 27)).1).mPctHandlePos
          = stepSample.mStep * (k : ℚ))) ∧
    ((_mouseEvent stepSample 100 (GUIMouseEvent.MouseMove 27)).1).mPctHandlePos = 3 / 10 ∧
    ((_mouseEvent stepSample 100 (GUIMouseEvent.MouseMove 24)).1).mPctHandlePos = 1 / 5 := by
  refine ⟨by norm_num [stepSample], rfl,
    C4_amended_step_quantization stepSample 100 27 (by norm_num [stepSample]) rfl, ?_, ?_⟩
  · simp only [_mouseEvent, stepSample, getHandlePosPx, getScrollableSize, getHandleSize,
      getMaxSize, positionFromPixel, clamp01, commit, flagIsSet, visualState]
    norm_num [round_eq]
  · simp only [_mouseEvent, stepSample, getHandlePosPx, getScrollableSize, getHandleSize,
      getMaxSize, positionFromPixel, clamp01, commit, flagIsSet, visualState]
    norm_num [round_eq]

end BansheeEngine
